import Mathlib

/-!
Verification development for `graphenestorage/masterpassword.py` of
python-graphenelib: a password vault holding one random master secret,
encrypted under a user password and persisted as `checksum$ciphertext`
under the single configuration key `"encrypted_master_password"`.

Python strings are modelled as `List Char`; the mutable `MasterPassword`
object as the record `MP`; a raised Python exception as `some e` in the
first component of each operation's result, paired with the state as it
stands when the exception leaves the method (Python does not roll back
mutations made before a raise).

The collaborators that live outside the embedded file
(`graphenebase.aes.AESCipher`, `graphenebase.bip38`, `hashlib.sha256`,
`os.urandom`, the `UNLOCK` environment variable) are modelled from the
spec as an opaque `Crypto` context whose fields carry exactly the
interface contracts the spec states for them.
-/

set_option maxHeartbeats 1000000

abbrev Str : Type := List Char

def dollarChar : Char := Char.ofNat 36

/-- Python semantics of `s.split(sep)` for a one-character separator:
`"".split` gives `[""]`, and n occurrences of the separator give n+1
(possibly empty) fields. -/
def splitOnChar (c : Char) : Str → List Str
  | [] => [[]]
  | x :: xs =>
    match splitOnChar c xs with
    | [] => [[]]
    | h :: t => if x = c then [] :: h :: t else (x :: h) :: t

/-- Python truthiness of a string: non-empty. -/
def truthyStr (s : Str) : Bool := !s.isEmpty

/-- Python truthiness of an optional string field: `None` and `""` are falsy. -/
def truthyOptStr : Option Str → Bool
  | none => false
  | some s => !s.isEmpty

/-- Modelled from the spec: the collaborators of the vault that are not part
of the embedded source file. `graphenebase.aes.AESCipher` is the password
keyed symmetric cipher (spec section 6: decryption "fails with a decryption
error on wrong key or malformed input"; its ciphertext encoding is embedded
in the `checksum$ciphertext` envelope, so it never contains the delimiter —
the source uses base64, which is dollar-free). `graphenebase.bip38` is the
passphrase-based credential wrapping primitive. `hashHexDigest` is the hex
digest of the cryptographic hash used by `deriveChecksum` (the source uses
`hashlib.sha256(...).hexdigest()`, dollar-free hex). `randomHex` is the
value `hexlify(os.urandom(32)).decode("ascii")` produced for a bootstrap
(non-empty). `unlockEnv` is the ambient `UNLOCK` environment variable. -/
structure Crypto where
  aesEncrypt : Str → Str → Str
  aesDecrypt : Str → Str → Option Str
  hashHexDigest : Str → Str
  bipEncrypt : Str → Str → Str
  bipDecrypt : Str → Str → Option Str
  randomHex : Str
  unlockEnv : Option Str
  aes_roundtrip : ∀ pw pt, aesDecrypt pw (aesEncrypt pw pt) = some pt
  aes_wrong_key : ∀ pw pw' pt, pw ≠ pw' → aesDecrypt pw' (aesEncrypt pw pt) = none
  aes_no_dollar : ∀ pw pt, dollarChar ∉ aesEncrypt pw pt
  hash_no_dollar : ∀ s, dollarChar ∉ (hashHexDigest s).take 4
  bip_roundtrip : ∀ pp raw, bipDecrypt (bipEncrypt raw pp) pp = some raw
  randomHex_ne_nil : randomHex ≠ []

/-- The exceptions the vault's methods can raise. `wrongMasterPassword` is
`WrongMasterPasswordException`; `malformedEnvelope` is the `ValueError`
from unpacking a `split("$")` that did not give exactly two fields;
`alreadyInitialized` is `Exception("Storage already has a masterpassword!")`;
`masterNotDecrypted` is `Exception("master not decrypted")`; `needUnlock` is
`Exception("Need to unlock storage!")`; `assertionError` is the failed
`assert self.unlocked()`; `keyError` is a read of the missing config key;
`typeError` is an operation applied to a `None` password or master;
`badCredential` is a rejection by the bip38 primitive; `fuelOut` is an
artifact of the bounded model of the `unlocked`/`unlock` recursion through
the `UNLOCK` environment variable and is never reached at the fuel used. -/
inductive Err where
  | wrongMasterPassword
  | malformedEnvelope
  | alreadyInitialized
  | masterNotDecrypted
  | needUnlock
  | assertionError
  | keyError
  | typeError
  | badCredential
  | fuelOut
deriving DecidableEq, Repr

/-- The mutable state of a `MasterPassword` object together with its
configuration store. `config` is the store's value at the fixed key
`"encrypted_master_password"` (`none` when the key is absent); `writes`
logs every value written to that key, oldest first; `password` and
`decrypted_master` are the object's fields. -/
structure MP where
  config : Option Str
  writes : List Str
  password : Option Str
  decrypted_master : Option Str
deriving DecidableEq, Repr

/-- `MasterPassword.__init__` with a store whose value at the config key is
`cfg`: both secret fields start as `None`. -/
def MP.init (cfg : Option Str) : MP := ⟨cfg, [], none, none⟩

/-- The `masterkey` property: returns `self.decrypted_master`. -/
def MasterPassword.masterkey (s : MP) : Option Str := s.decrypted_master

/-- `has_masterpassword`: containment test of the config key. -/
def MasterPassword.has_masterpassword (s : MP) : Bool := s.config.isSome

/-- `deriveChecksum`: first 4 characters of the hex digest of the hash. -/
def MasterPassword.deriveChecksum (C : Crypto) (s : Str) : Str :=
  (C.hashHexDigest s).take 4

/-- `raiseWrongMasterPasswordException`: clears `self.password`, then raises. -/
def MasterPassword.raiseWrongMasterPasswordException (s : MP) : Option Err × MP :=
  (some .wrongMasterPassword, { s with password := none })

/-- `decryptEncryptedMaster`: builds the cipher from `self.password` (a
`None` password fails inside the cipher), reads the stored envelope (absent
key raises `KeyError`), splits on `"$"` (a field count other than two
raises the unpack `ValueError`), decrypts inside a bare `except:` that
funnels every decryption failure into `raiseWrongMasterPasswordException`,
compares the checksum, and on success stores the decrypted master. -/
def MasterPassword.decryptEncryptedMaster (C : Crypto) (s : MP) : Option Err × MP :=
  match s.password with
  | none => (some .typeError, s)
  | some pw =>
    match s.config with
    | none => (some .keyError, s)
    | some stored =>
      match splitOnChar dollarChar stored with
      | [checksum, encrypted_master] =>
        match C.aesDecrypt pw encrypted_master with
        | none => MasterPassword.raiseWrongMasterPasswordException s
        | some dm =>
          if checksum ≠ MasterPassword.deriveChecksum C dm then
            MasterPassword.raiseWrongMasterPasswordException s
          else (none, { s with decrypted_master := some dm })
      | _ => (some .malformedEnvelope, s)

/-- `getEncryptedMaster`, parameterized by the implementation of
`self.unlocked()` (which can itself attempt an environment unlock):
requires a truthy `masterkey` and `unlocked()`, then returns
`deriveChecksum(masterkey) + "$" + aes(password).encrypt(masterkey)`. -/
def getEncryptedMasterGo (unl : Crypto → MP → Option Err × Bool × MP)
    (C : Crypto) (s : MP) : Option Err × Option Str × MP :=
  if truthyOptStr s.decrypted_master = false then
    (some .masterNotDecrypted, none, s)
  else
    match unl C s with
    | (some e, _, s') => (some e, none, s')
    | (none, false, s') => (some .needUnlock, none, s')
    | (none, true, s') =>
      match s'.password, s'.decrypted_master with
      | some pw, some mk =>
        (none, some (MasterPassword.deriveChecksum C mk ++
          dollarChar :: C.aesEncrypt pw mk), s')
      | _, _ => (some .typeError, none, s')

/-- `saveEncrytpedMaster` (the source's spelling): writes the encrypted
master to the config key. -/
def saveEncrytpedMasterGo (unl : Crypto → MP → Option Err × Bool × MP)
    (C : Crypto) (s : MP) : Option Err × MP :=
  match getEncryptedMasterGo unl C s with
  | (some e, _, s') => (some e, s')
  | (none, some v, s') => (none, { s' with config := some v, writes := s'.writes ++ [v] })
  | (none, none, s') => (some .typeError, s')

/-- `newMaster`: refuses when the config key holds a truthy value, else
generates `hexlify(os.urandom(32))`, sets the password and saves. (The
Python method also returns `self.masterkey`; no caller in the source uses
that return value, so it is omitted here.) -/
def newMasterGo (unl : Crypto → MP → Option Err × Bool × MP)
    (C : Crypto) (s : MP) (password : Str) : Option Err × MP :=
  if (match s.config with | some v => truthyStr v | none => false) then
    (some .alreadyInitialized, s)
  else
    saveEncrytpedMasterGo unl C
      { s with decrypted_master := some C.randomHex, password := some password }

/-- `unlock`: stores the password, then either bootstraps (config key
absent: `newMaster` followed by a second `saveEncrytpedMaster`) or decrypts
the stored envelope. -/
def unlockGo (unl : Crypto → MP → Option Err × Bool × MP)
    (C : Crypto) (s : MP) (password : Str) : Option Err × MP :=
  let s1 : MP := { s with password := some password }
  match s1.config with
  | none =>
    match newMasterGo unl C s1 password with
    | (some e, s') => (some e, s')
    | (none, s') => saveEncrytpedMasterGo unl C s'
  | some _ => MasterPassword.decryptEncryptedMaster C s1

/-- `unlocked`, with a fuel bound on its recursion through the `UNLOCK`
environment variable: with a password set it is `bool(self.password)`;
with no password and a truthy `UNLOCK` value it attempts `unlock` with that
value (whose own nested `unlocked()` calls recurse at smaller fuel) and
reports `bool(self.password)` afterwards; otherwise `False`. -/
def unlockedF : Nat → Crypto → MP → Option Err × Bool × MP
  | 0, _, s => (some .fuelOut, false, s)
  | fuel + 1, C, s =>
    match s.password with
    | some p => (none, truthyStr p, s)
    | none =>
      match C.unlockEnv with
      | some u =>
        if truthyStr u then
          match unlockGo (unlockedF fuel) C s u with
          | (some e, s') => (some e, false, s')
          | (none, s') => (none, truthyOptStr s'.password, s')
        else (none, false, s)
      | none => (none, false, s)

/-- Fuel used for the environment-unlock recursion: any nesting the claims
exercise is far below this bound. -/
def FUEL : Nat := 12

def MasterPassword.unlocked (C : Crypto) (s : MP) : Option Err × Bool × MP :=
  unlockedF FUEL C s

/-- `locked`: `not self.unlocked()` (an exception from `unlocked` propagates). -/
def MasterPassword.locked (C : Crypto) (s : MP) : Option Err × Bool × MP :=
  match unlockedF FUEL C s with
  | (some e, _, s') => (some e, false, s')
  | (none, b, s') => (none, !b, s')

/-- `lock`: `self.password = None`. Total and idempotent. -/
def MasterPassword.lock (s : MP) : MP := { s with password := none }

def MasterPassword.unlock (C : Crypto) (s : MP) (password : Str) : Option Err × MP :=
  unlockGo (unlockedF FUEL) C s password

def MasterPassword.newMaster (C : Crypto) (s : MP) (password : Str) : Option Err × MP :=
  newMasterGo (unlockedF FUEL) C s password

def MasterPassword.saveEncrytpedMaster (C : Crypto) (s : MP) : Option Err × MP :=
  saveEncrytpedMasterGo (unlockedF FUEL) C s

def MasterPassword.getEncryptedMaster (C : Crypto) (s : MP) : Option Err × Option Str × MP :=
  getEncryptedMasterGo (unlockedF FUEL) C s

/-- `changePassword`: `assert self.unlocked()`, set the new password, save. -/
def MasterPassword.changePassword (C : Crypto) (s : MP) (newpassword : Str) :
    Option Err × MP :=
  match unlockedF FUEL C s with
  | (some e, _, s') => (some e, s')
  | (none, false, s') => (some .assertionError, s')
  | (none, true, s') =>
    saveEncrytpedMasterGo (unlockedF FUEL) C { s' with password := some newpassword }

/-- `encrypt` (credential wrap): `bip38.encrypt(str(wif), self.masterkey)`.
No lock-state check is performed; a `None` masterkey fails inside bip38. -/
def MasterPassword.encrypt (C : Crypto) (s : MP) (wif : Str) : Option Err × Option Str :=
  match s.decrypted_master with
  | none => (some .typeError, none)
  | some mk => (none, some (C.bipEncrypt wif mk))

/-- `decrypt` (credential unwrap): `bip38.decrypt(wif, self.masterkey)`.
No lock-state check is performed; a `None` masterkey fails inside bip38,
and a rejected input surfaces as the bip38 failure. -/
def MasterPassword.decrypt (C : Crypto) (s : MP) (wif : Str) : Option Err × Option Str :=
  match s.decrypted_master with
  | none => (some .typeError, none)
  | some mk =>
    match C.bipDecrypt wif mk with
    | none => (some .badCredential, none)
    | some raw => (none, some raw)

theorem splitOnChar_ne_nil (c : Char) (s : Str) : splitOnChar c s ≠ [] := by
  induction s with
  | nil => simp [splitOnChar]
  | cons x xs ih =>
    unfold splitOnChar
    cases hs : splitOnChar c xs with
    | nil => simp
    | cons h t => dsimp only; split <;> simp

theorem splitOnChar_no_sep (c : Char) (a : Str) (ha : c ∉ a) :
    splitOnChar c a = [a] := by
  induction a with
  | nil => rfl
  | cons x xs ih =>
    have hx : x ≠ c := fun h => ha (h ▸ List.mem_cons_self x xs)
    have hxs : c ∉ xs := fun h => ha (List.mem_cons_of_mem x h)
    unfold splitOnChar
    rw [ih hxs]
    simp [hx]


theorem splitOnChar_cons (c x : Char) (xs : Str) :
    splitOnChar c (x :: xs) =
      match splitOnChar c xs with
      | [] => [[]]
      | h :: t => if x = c then [] :: h :: t else (x :: h) :: t := rfl

theorem splitOnChar_append (c : Char) (a b : Str) (ha : c ∉ a) :
    splitOnChar c (a ++ c :: b) = a :: splitOnChar c b := by
  induction a with
  | nil =>
    simp only [List.nil_append]
    rw [splitOnChar_cons]
    cases hb : splitOnChar c b with
    | nil => exact absurd hb (splitOnChar_ne_nil c b)
    | cons h t => simp
  | cons x xs ih =>
    have hx : x ≠ c := fun h => ha (h ▸ List.mem_cons_self x xs)
    have hxs : c ∉ xs := fun h => ha (List.mem_cons_of_mem x h)
    simp only [List.cons_append]
    rw [splitOnChar_cons, ih hxs]
    simp [hx]

theorem splitOnChar_length (c : Char) (s : Str) :
    (splitOnChar c s).length = s.count c + 1 := by
  induction s with
  | nil => simp [splitOnChar]
  | cons x xs ih =>
    rw [splitOnChar_cons]
    cases hs : splitOnChar c xs with
    | nil => exact absurd hs (splitOnChar_ne_nil c xs)
    | cons h t =>
      rw [hs] at ih
      by_cases hx : x = c
      · subst hx
        simp only [if_pos rfl, ite_true, eq_self_iff_true,
          List.length_cons, List.count_cons_self] at *
        omega
      · simp only [if_neg hx, List.length_cons] at *
        rw [List.count_cons_of_ne (fun h => hx h.symm)]
        omega

/-! Concrete, executable instantiations of the collaborator contracts, used
to evaluate the vault on concrete inputs. The cipher encodes the key and
the plaintext as one decimal-digit string via an injective numeric pairing;
decryption checks the embedded key and fails on any other key, matching the
contract. The checksum hash is a 16-bit hash presented as hex-digit
characters, mirroring the 16-bit strength of the source's truncated sha256
hexdigest. -/

def charBase : Nat := 2097152

theorem char_toNat_lt (c : Char) : c.toNat < 1114112 := by
  have h := c.valid
  simp only [UInt32.isValidChar, Nat.isValidChar] at h
  rcases h with h | h
  · exact lt_trans h (by norm_num)
  · exact h.2

theorem char_toNat_add_one_lt (c : Char) : c.toNat + 1 < charBase := by
  have := char_toNat_lt c
  unfold charBase
  omega

theorem char_toNat_ofNat_of_valid {n : Nat} (h : n.isValidChar) :
    (Char.ofNat n).toNat = n := by
  simp only [Char.ofNat, dif_pos h]
  simp only [Char.ofNatAux, Char.toNat, UInt32.toNat]
  simp only [BitVec.toNat_ofNatLt]

theorem char_toNat_ofNat_of_lt {n : Nat} (h : n < 55296) :
    (Char.ofNat n).toNat = n :=
  char_toNat_ofNat_of_valid (Or.inl h)

def encNat : Str → Nat
  | [] => 0
  | c :: cs => encNat cs * charBase + (c.toNat + 1)

def decNatAux : Nat → Nat → Str
  | 0, _ => []
  | fuel + 1, n =>
    if n = 0 then []
    else Char.ofNat (n % charBase - 1) :: decNatAux fuel (n / charBase)

def decNat (n : Nat) : Str := decNatAux n n

theorem decNatAux_encNat : ∀ (s : Str) (fuel : Nat),
    encNat s ≤ fuel → decNatAux fuel (encNat s) = s := by
  intro s
  induction s with
  | nil =>
    intro fuel _
    cases fuel with
    | zero => rfl
    | succ f => simp [decNatAux, encNat]
  | cons c cs ih =>
    intro fuel hf
    have hklt : c.toNat + 1 < charBase := char_toNat_add_one_lt c
    have hBpos : 0 < charBase := by unfold charBase; omega
    have hmle : encNat cs ≤ encNat cs * charBase := by
      calc encNat cs = encNat cs * 1 := (Nat.mul_one _).symm
        _ ≤ encNat cs * charBase := Nat.mul_le_mul_left _ hBpos
    have hpos : 0 < encNat (c :: cs) := by
      simp only [encNat]; omega
    cases fuel with
    | zero => omega
    | succ f =>
      have hne : encNat (c :: cs) ≠ 0 := Nat.pos_iff_ne_zero.mp hpos
      simp only [decNatAux, if_neg hne]
      have hmod : encNat (c :: cs) % charBase = c.toNat + 1 := by
        simp only [encNat]
        unfold charBase at *
        omega
      have hdiv : encNat (c :: cs) / charBase = encNat cs := by
        simp only [encNat]
        unfold charBase at *
        omega
      rw [hmod, hdiv]
      have hrec : encNat cs ≤ f := by
        have : encNat cs < encNat (c :: cs) := by
          simp only [encNat]; omega
        omega
      rw [ih f hrec]
      congr 1
      simp only [Nat.add_sub_cancel]
      exact Char.ofNat_toNat c

theorem decNat_encNat (s : Str) : decNat (encNat s) = s :=
  decNatAux_encNat s (encNat s) le_rfl

theorem encNat_inj {a b : Str} (h : encNat a = encNat b) : a = b := by
  have := decNat_encNat a
  rw [h, decNat_encNat b] at this
  exact this.symm

def natCharsAux : Nat → Nat → Str
  | 0, _ => []
  | fuel + 1, n =>
    if n = 0 then []
    else Char.ofNat (48 + n % 10) :: natCharsAux fuel (n / 10)

def natChars (n : Nat) : Str := natCharsAux n n

def parseNatDigits : Str → Nat
  | [] => 0
  | c :: cs => (c.toNat - 48) + 10 * parseNatDigits cs

theorem parseNat_natCharsAux : ∀ (fuel n : Nat),
    n ≤ fuel → parseNatDigits (natCharsAux fuel n) = n := by
  intro fuel
  induction fuel with
  | zero =>
    intro n hn
    simp only [natCharsAux, parseNatDigits]
    omega
  | succ f ih =>
    intro n hn
    by_cases h0 : n = 0
    · subst h0; simp [natCharsAux, parseNatDigits]
    · simp only [natCharsAux, if_neg h0, parseNatDigits]
      have hd : n % 10 < 10 := Nat.mod_lt _ (by norm_num)
      have hc : (Char.ofNat (48 + n % 10)).toNat = 48 + n % 10 :=
        char_toNat_ofNat_of_lt (by omega)
      rw [hc]
      have hdiv : n / 10 ≤ f := by
        have : n / 10 < n := Nat.div_lt_self (Nat.pos_of_ne_zero h0) (by norm_num)
        omega
      rw [ih (n / 10) hdiv]
      omega

theorem parseNat_natChars (n : Nat) : parseNatDigits (natChars n) = n :=
  parseNat_natCharsAux n n le_rfl

theorem natCharsAux_digit : ∀ (fuel n : Nat) (c : Char),
    c ∈ natCharsAux fuel n → 48 ≤ c.toNat ∧ c.toNat ≤ 57 := by
  intro fuel
  induction fuel with
  | zero => intro n c hc; simp [natCharsAux] at hc
  | succ f ih =>
    intro n c hc
    by_cases h0 : n = 0
    · subst h0; simp [natCharsAux] at hc
    · simp only [natCharsAux, if_neg h0, List.mem_cons] at hc
      rcases hc with hc | hc
      · subst hc
        have hd : n % 10 < 10 := Nat.mod_lt _ (by norm_num)
        rw [char_toNat_ofNat_of_lt (by omega)]
        omega
      · exact ih (n / 10) c hc

theorem dollarChar_toNat : dollarChar.toNat = 36 := by
  unfold dollarChar
  exact char_toNat_ofNat_of_lt (by norm_num)

theorem natChars_no_dollar (n : Nat) : dollarChar ∉ natChars n := by
  intro hmem
  have := natCharsAux_digit n n dollarChar hmem
  rw [dollarChar_toNat] at this
  omega

/-- Separator used inside the toy ciphertext encoding (a dot, which like
base64 output never collides with the envelope delimiter). -/
def dotChar : Char := Char.ofNat 46

theorem dotChar_toNat : dotChar.toNat = 46 := by
  unfold dotChar
  exact char_toNat_ofNat_of_lt (by norm_num)

theorem natChars_no_dot (n : Nat) : dotChar ∉ natChars n := by
  intro hmem
  have := natCharsAux_digit n n dotChar hmem
  rw [dotChar_toNat] at this
  omega

theorem natChars_inj {a b : Nat} (h : natChars a = natChars b) : a = b := by
  have ha := parseNat_natChars a
  rw [h, parseNat_natChars b] at ha
  exact ha.symm

def toyEncrypt (pw pt : Str) : Str :=
  natChars (encNat pw) ++ dotChar :: natChars (encNat pt)

def toyDecrypt (pw ct : Str) : Option Str :=
  match splitOnChar dotChar ct with
  | [tag, body] =>
    if tag = natChars (encNat pw) then some (decNat (parseNatDigits body)) else none
  | _ => none

theorem toy_roundtrip (pw pt : Str) : toyDecrypt pw (toyEncrypt pw pt) = some pt := by
  unfold toyDecrypt toyEncrypt
  rw [splitOnChar_append _ _ _ (natChars_no_dot _),
    splitOnChar_no_sep _ _ (natChars_no_dot _)]
  simp [parseNat_natChars, decNat_encNat]

theorem toy_wrong_key (pw pw' pt : Str) (h : pw ≠ pw') :
    toyDecrypt pw' (toyEncrypt pw pt) = none := by
  unfold toyDecrypt toyEncrypt
  rw [splitOnChar_append _ _ _ (natChars_no_dot _),
    splitOnChar_no_sep _ _ (natChars_no_dot _)]
  dsimp only
  rw [if_neg]
  intro htag
  exact h (encNat_inj (natChars_inj htag))

theorem toy_no_dollar (pw pt : Str) : dollarChar ∉ toyEncrypt pw pt := by
  intro hmem
  unfold toyEncrypt at hmem
  rcases List.mem_append.mp hmem with hd | hd
  · exact natChars_no_dollar _ hd
  · rcases List.mem_cons.mp hd with hd | hd
    · have h1 := dollarChar_toNat
      rw [hd, dotChar_toNat] at h1
      omega
    · exact natChars_no_dollar _ hd

def toyHash (s : Str) : Str :=
  natChars (encNat s % 65536) ++ [Char.ofNat 48, Char.ofNat 48, Char.ofNat 48, Char.ofNat 48]

theorem toyHash_no_dollar (s : Str) : dollarChar ∉ (toyHash s).take 4 := by
  intro hmem
  have hmem' : dollarChar ∈ toyHash s := List.take_subset 4 _ hmem
  unfold toyHash at hmem'
  rcases List.mem_append.mp hmem' with h | h
  · exact natChars_no_dollar _ h
  · have h36 : dollarChar.toNat = 36 := dollarChar_toNat
    have h48 : (Char.ofNat 48).toNat = 48 := char_toNat_ofNat_of_lt (by norm_num)
    simp only [List.mem_cons, List.not_mem_nil, or_false] at h
    rcases h with h | h | h | h <;> (rw [h] at h36; rw [h48] at h36; omega)

/-- Builds a concrete collaborator context from a chosen bootstrap master
value and `UNLOCK` environment content. -/
def mkToyCrypto (rh : Str) (hrh : rh ≠ []) (env : Option Str) : Crypto where
  aesEncrypt := toyEncrypt
  aesDecrypt := toyDecrypt
  hashHexDigest := toyHash
  bipEncrypt := fun raw pp => toyEncrypt pp raw
  bipDecrypt := fun w pp => toyDecrypt pp w
  randomHex := rh
  unlockEnv := env
  aes_roundtrip := toy_roundtrip
  aes_wrong_key := toy_wrong_key
  aes_no_dollar := toy_no_dollar
  hash_no_dollar := toyHash_no_dollar
  bip_roundtrip := fun pp raw => toy_roundtrip pp raw
  randomHex_ne_nil := hrh

/-! Helper lemmas characterizing the vault runs the claims exercise. -/

/-- The envelope string the vault persists for master `mk` under password
`pw`: `deriveChecksum(mk) + "$" + encrypt(mk)`. -/
def envelopeOf (C : Crypto) (pw mk : Str) : Str :=
  MasterPassword.deriveChecksum C mk ++ dollarChar :: C.aesEncrypt pw mk

theorem truthyStr_of_ne_nil {p : Str} (h : p ≠ []) : truthyStr p = true := by
  cases p with
  | nil => exact absurd rfl h
  | cons a l => simp [truthyStr]

theorem truthyOptStr_some_of_ne_nil {p : Str} (h : p ≠ []) :
    truthyOptStr (some p) = true := by
  cases p with
  | nil => exact absurd rfl h
  | cons a l => simp [truthyOptStr]

theorem unlockedF_succ_noenv (C : Crypto) (henv : C.unlockEnv = none)
    (f : Nat) (s : MP) :
    unlockedF (f + 1) C s = (none, truthyOptStr s.password, s) := by
  cases hsp : s.password with
  | some p => simp [unlockedF, hsp, truthyOptStr, truthyStr]
  | none => simp [unlockedF, hsp, henv, truthyOptStr]

theorem unlockedF_FUEL_noenv (C : Crypto) (henv : C.unlockEnv = none) (s : MP) :
    unlockedF FUEL C s = (none, truthyOptStr s.password, s) :=
  unlockedF_succ_noenv C henv 11 s

theorem splitOnChar_envelope (C : Crypto) (pw mk : Str) :
    splitOnChar dollarChar (envelopeOf C pw mk) =
      [MasterPassword.deriveChecksum C mk, C.aesEncrypt pw mk] := by
  unfold envelopeOf MasterPassword.deriveChecksum
  rw [splitOnChar_append _ _ _ (C.hash_no_dollar mk),
    splitOnChar_no_sep _ _ (C.aes_no_dollar pw mk)]

/-- Bootstrap run: on a store without the config key, `unlock(P)` with a
truthy password generates the master, ends unlocked, and writes the same
envelope twice (once inside `newMaster`, once again from `unlock`). -/
theorem unlock_bootstrap (C : Crypto) (henv : C.unlockEnv = none)
    (s : MP) (hcfg : s.config = none) (P : Str) (hP : P ≠ []) :
    MasterPassword.unlock C s P =
      (none, ⟨some (envelopeOf C P C.randomHex),
              s.writes ++ [envelopeOf C P C.randomHex, envelopeOf C P C.randomHex],
              some P, some C.randomHex⟩) := by
  obtain ⟨cfg, w, pw0, dm0⟩ := s
  simp only at hcfg
  subst hcfg
  have hT : truthyOptStr (some P) = true := truthyOptStr_some_of_ne_nil hP
  have hR : truthyOptStr (some C.randomHex) = true :=
    truthyOptStr_some_of_ne_nil C.randomHex_ne_nil
  unfold MasterPassword.unlock unlockGo newMasterGo saveEncrytpedMasterGo
    getEncryptedMasterGo
  simp [unlockedF_FUEL_noenv C henv, hT, hR, envelopeOf]

/-- Unlocking a stored envelope with the password it was created under
succeeds and recovers the stored master. -/
theorem unlock_stored_ok (C : Crypto)
    (s : MP) (P mk : Str) (hcfg : s.config = some (envelopeOf C P mk)) :
    MasterPassword.unlock C s P =
      (none, { s with password := some P, decrypted_master := some mk }) := by
  obtain ⟨cfg, w, pw0, dm0⟩ := s
  simp only at hcfg
  subst hcfg
  unfold MasterPassword.unlock unlockGo MasterPassword.decryptEncryptedMaster
  simp [splitOnChar_envelope, C.aes_roundtrip]

/-- Unlocking a stored envelope with any other password raises
`WrongMasterPasswordException` and clears the password; nothing else in the
state changes (in particular the store and the write log are untouched). -/
theorem unlock_stored_wrong (C : Crypto) (s : MP) (P Q mk : Str)
    (hcfg : s.config = some (envelopeOf C P mk)) (hQ : Q ≠ P) :
    MasterPassword.unlock C s Q =
      (some .wrongMasterPassword, { s with password := none }) := by
  obtain ⟨cfg, w, pw0, dm0⟩ := s
  simp only at hcfg
  subst hcfg
  unfold MasterPassword.unlock unlockGo MasterPassword.decryptEncryptedMaster
  simp [splitOnChar_envelope, C.aes_wrong_key P Q mk (fun h => hQ h.symm),
    MasterPassword.raiseWrongMasterPasswordException]

theorem saveEncrytpedMaster_run (C : Crypto) (henv : C.unlockEnv = none)
    (s : MP) (pw mk : Str) (hpw : s.password = some pw) (hpwne : pw ≠ [])
    (hdm : s.decrypted_master = some mk) (hmk : mk ≠ []) :
    saveEncrytpedMasterGo (unlockedF FUEL) C s =
      (none, { s with config := some (envelopeOf C pw mk),
                      writes := s.writes ++ [envelopeOf C pw mk] }) := by
  obtain ⟨cfg, w, pw0, dm0⟩ := s
  simp only at hpw hdm
  subst hpw; subst hdm
  unfold saveEncrytpedMasterGo getEncryptedMasterGo
  simp [unlockedF_FUEL_noenv C henv, truthyOptStr_some_of_ne_nil hmk,
    truthyOptStr_some_of_ne_nil hpwne, envelopeOf]

theorem changePassword_run (C : Crypto) (henv : C.unlockEnv = none)
    (s : MP) (pw nw mk : Str)
    (hpw : s.password = some pw) (hpwne : pw ≠ []) (hnw : nw ≠ [])
    (hdm : s.decrypted_master = some mk) (hmk : mk ≠ []) :
    MasterPassword.changePassword C s nw =
      (none, { s with password := some nw,
                      config := some (envelopeOf C nw mk),
                      writes := s.writes ++ [envelopeOf C nw mk] }) := by
  unfold MasterPassword.changePassword
  rw [unlockedF_FUEL_noenv C henv, hpw, truthyOptStr_some_of_ne_nil hpwne]
  dsimp only
  rw [saveEncrytpedMaster_run C henv _ nw mk rfl hnw (by simpa using hdm) hmk]

/-! The ten claims. -/

/-- Concrete bootstrap master used for the executable witnesses. -/
def egMaster : Str := ['a', 'b']

/-- Concrete collaborator context used for the executable witnesses. -/
def egCrypto : Crypto := mkToyCrypto egMaster (by decide) none

/-- C1 (amended: the fresh password must be non-empty — see
`C1_counterexample`): on a fresh store, `unlock(P)` then `lock()` then
`unlock(P)` succeeds both times and yields the same MasterSecret both
times. -/
theorem C1_round_trip (C : Crypto) (P : Str)
    (henv : C.unlockEnv = none) (hP : P ≠ []) :
    ∃ mk : Str,
      (MasterPassword.unlock C (MP.init none) P).1 = none ∧
      (MasterPassword.unlock C (MP.init none) P).2.decrypted_master = some mk ∧
      (MasterPassword.unlock C
        (MasterPassword.lock (MasterPassword.unlock C (MP.init none) P).2) P).1 = none ∧
      (MasterPassword.unlock C
        (MasterPassword.lock (MasterPassword.unlock C (MP.init none) P).2) P).2.decrypted_master
        = some mk := by
  have h1 := unlock_bootstrap C henv (MP.init none) rfl P hP
  have hlock : MasterPassword.lock (MasterPassword.unlock C (MP.init none) P).2 =
      ⟨some (envelopeOf C P C.randomHex),
       [envelopeOf C P C.randomHex, envelopeOf C P C.randomHex],
       none, some C.randomHex⟩ := by
    rw [h1]; rfl
  have h2 := unlock_stored_ok C
      (MasterPassword.lock (MasterPassword.unlock C (MP.init none) P).2)
      P C.randomHex (by rw [hlock])
  refine ⟨C.randomHex, ?_, ?_, ?_, ?_⟩
  · rw [h1]
  · rw [h1]
  · rw [h2]
  · rw [h2, hlock]

/-- C1 witness at a concrete context and password. -/
theorem C1_round_trip_witness :
    ∃ mk : Str,
      (MasterPassword.unlock egCrypto (MP.init none) ['p']).1 = none ∧
      (MasterPassword.unlock egCrypto (MP.init none) ['p']).2.decrypted_master = some mk ∧
      (MasterPassword.unlock egCrypto
        (MasterPassword.lock (MasterPassword.unlock egCrypto (MP.init none) ['p']).2)
        ['p']).1 = none ∧
      (MasterPassword.unlock egCrypto
        (MasterPassword.lock (MasterPassword.unlock egCrypto (MP.init none) ['p']).2)
        ['p']).2.decrypted_master = some mk :=
  C1_round_trip egCrypto ['p'] rfl (by decide)

/-- C1 counterexample: for the (empty) password `""` the very first
`unlock` on a fresh store raises `Exception("Need to unlock storage!")`
(because `bool("") == False` inside `getEncryptedMaster`), so the claim's
"for any password P" round trip fails at P = `""`. -/
theorem C1_counterexample :
    (MasterPassword.unlock egCrypto (MP.init none) []).1 = some Err.needUnlock ∧
    ¬ (MasterPassword.unlock egCrypto (MP.init none) []).1 = none := by
  decide

/-- C2: after `unlock(P)` on a fresh store and `lock()`, unlocking with any
`Q ≠ P` raises `WrongMasterPasswordException`, clears the in-memory
password (the vault reports locked), and leaves the stored envelope and
the write log byte-identical. -/
theorem C2_wrong_password_rejected (C : Crypto) (P Q : Str)
    (henv : C.unlockEnv = none) (hP : P ≠ []) (hQ : Q ≠ P) :
    (MasterPassword.unlock C
        (MasterPassword.lock (MasterPassword.unlock C (MP.init none) P).2) Q).1
      = some Err.wrongMasterPassword ∧
    (MasterPassword.unlock C
        (MasterPassword.lock (MasterPassword.unlock C (MP.init none) P).2) Q).2.password
      = none ∧
    (MasterPassword.locked C (MasterPassword.unlock C
        (MasterPassword.lock (MasterPassword.unlock C (MP.init none) P).2) Q).2).2.1
      = true ∧
    (MasterPassword.unlock C
        (MasterPassword.lock (MasterPassword.unlock C (MP.init none) P).2) Q).2.config
      = (MasterPassword.lock (MasterPassword.unlock C (MP.init none) P).2).config ∧
    (MasterPassword.unlock C
        (MasterPassword.lock (MasterPassword.unlock C (MP.init none) P).2) Q).2.writes
      = (MasterPassword.lock (MasterPassword.unlock C (MP.init none) P).2).writes := by
  have h1 := unlock_bootstrap C henv (MP.init none) rfl P hP
  have hlock : MasterPassword.lock (MasterPassword.unlock C (MP.init none) P).2 =
      ⟨some (envelopeOf C P C.randomHex),
       [envelopeOf C P C.randomHex, envelopeOf C P C.randomHex],
       none, some C.randomHex⟩ := by
    rw [h1]; rfl
  have h2 := unlock_stored_wrong C
      ⟨some (envelopeOf C P C.randomHex),
       [envelopeOf C P C.randomHex, envelopeOf C P C.randomHex],
       none, some C.randomHex⟩
      P Q C.randomHex rfl hQ
  rw [hlock, h2]
  refine ⟨rfl, rfl, ?_, rfl, rfl⟩
  simp [MasterPassword.locked, unlockedF_FUEL_noenv C henv, truthyOptStr]

/-- C2 witness at a concrete context and password pair. -/
theorem C2_wrong_password_rejected_witness :
    (MasterPassword.unlock egCrypto
        (MasterPassword.lock (MasterPassword.unlock egCrypto (MP.init none) ['p']).2)
        ['q']).1 = some Err.wrongMasterPassword ∧
    (MasterPassword.unlock egCrypto
        (MasterPassword.lock (MasterPassword.unlock egCrypto (MP.init none) ['p']).2)
        ['q']).2.password = none ∧
    (MasterPassword.locked egCrypto (MasterPassword.unlock egCrypto
        (MasterPassword.lock (MasterPassword.unlock egCrypto (MP.init none) ['p']).2)
        ['q']).2).2.1 = true ∧
    (MasterPassword.unlock egCrypto
        (MasterPassword.lock (MasterPassword.unlock egCrypto (MP.init none) ['p']).2)
        ['q']).2.config
      = (MasterPassword.lock (MasterPassword.unlock egCrypto (MP.init none) ['p']).2).config ∧
    (MasterPassword.unlock egCrypto
        (MasterPassword.lock (MasterPassword.unlock egCrypto (MP.init none) ['p']).2)
        ['q']).2.writes
      = (MasterPassword.lock (MasterPassword.unlock egCrypto (MP.init none) ['p']).2).writes :=
  C2_wrong_password_rejected egCrypto ['p'] ['q'] rfl (by decide) (by decide)

/-- C3 (amended: the new password must be non-empty — see
`C3_counterexample` — and distinct from P, as the rotation scenario
presupposes): with the vault unlocked after `unlock(P)` on a fresh store,
`changePassword(Q)` succeeds, leaves the MasterSecret unchanged, overwrites
the stored envelope re-encrypted under Q; then `lock()` and `unlock(Q)`
recover the same MasterSecret while `unlock(P)` now fails; and
`changePassword` fails with the assertion error on any state whose password
field is not truthy (vault not unlocked). -/
theorem C3_password_rotation (C : Crypto) (P Q : Str)
    (henv : C.unlockEnv = none) (hP : P ≠ []) (hQ : Q ≠ []) (hQP : Q ≠ P) :
    (MasterPassword.changePassword C (MasterPassword.unlock C (MP.init none) P).2 Q).1
      = none ∧
    (MasterPassword.changePassword C
        (MasterPassword.unlock C (MP.init none) P).2 Q).2.decrypted_master
      = (MasterPassword.unlock C (MP.init none) P).2.decrypted_master ∧
    (MasterPassword.changePassword C
        (MasterPassword.unlock C (MP.init none) P).2 Q).2.config
      = some (envelopeOf C Q C.randomHex) ∧
    (MasterPassword.unlock C (MasterPassword.lock (MasterPassword.changePassword C
        (MasterPassword.unlock C (MP.init none) P).2 Q).2) Q).1 = none ∧
    (MasterPassword.unlock C (MasterPassword.lock (MasterPassword.changePassword C
        (MasterPassword.unlock C (MP.init none) P).2 Q).2) Q).2.decrypted_master
      = some C.randomHex ∧
    (MasterPassword.unlock C (MasterPassword.lock (MasterPassword.changePassword C
        (MasterPassword.unlock C (MP.init none) P).2 Q).2) P).1
      = some Err.wrongMasterPassword ∧
    (∀ (t : MP) (nw : Str), truthyOptStr t.password = false →
      MasterPassword.changePassword C t nw = (some Err.assertionError, t)) := by
  have h1 := unlock_bootstrap C henv (MP.init none) rfl P hP
  simp only [MP.init, List.nil_append] at h1
  simp only [MP.init]
  rw [h1]
  dsimp only
  have hcp := changePassword_run C henv
      ⟨some (envelopeOf C P C.randomHex),
       [envelopeOf C P C.randomHex, envelopeOf C P C.randomHex],
       some P, some C.randomHex⟩
      P Q C.randomHex rfl hP hQ rfl C.randomHex_ne_nil
  dsimp only at hcp
  rw [hcp]
  dsimp only
  rw [unlock_stored_ok C _ Q C.randomHex rfl]
  rw [unlock_stored_wrong C _ Q P C.randomHex rfl (fun h => hQP h.symm)]
  refine ⟨rfl, rfl, rfl, rfl, rfl, rfl, ?_⟩
  intro t nw ht
  unfold MasterPassword.changePassword
  rw [unlockedF_FUEL_noenv C henv, ht]

/-- C3 witness at a concrete context and password pair. -/
theorem C3_password_rotation_witness :
    (MasterPassword.changePassword egCrypto
        (MasterPassword.unlock egCrypto (MP.init none) ['p']).2 ['q']).1 = none ∧
    (MasterPassword.changePassword egCrypto
        (MasterPassword.unlock egCrypto (MP.init none) ['p']).2 ['q']).2.decrypted_master
      = (MasterPassword.unlock egCrypto (MP.init none) ['p']).2.decrypted_master ∧
    (MasterPassword.changePassword egCrypto
        (MasterPassword.unlock egCrypto (MP.init none) ['p']).2 ['q']).2.config
      = some (envelopeOf egCrypto ['q'] egCrypto.randomHex) ∧
    (MasterPassword.unlock egCrypto (MasterPassword.lock (MasterPassword.changePassword egCrypto
        (MasterPassword.unlock egCrypto (MP.init none) ['p']).2 ['q']).2) ['q']).1 = none ∧
    (MasterPassword.unlock egCrypto (MasterPassword.lock (MasterPassword.changePassword egCrypto
        (MasterPassword.unlock egCrypto (MP.init none) ['p']).2 ['q']).2)
        ['q']).2.decrypted_master = some egCrypto.randomHex ∧
    (MasterPassword.unlock egCrypto (MasterPassword.lock (MasterPassword.changePassword egCrypto
        (MasterPassword.unlock egCrypto (MP.init none) ['p']).2 ['q']).2) ['p']).1
      = some Err.wrongMasterPassword ∧
    (∀ (t : MP) (nw : Str), truthyOptStr t.password = false →
      MasterPassword.changePassword egCrypto t nw = (some Err.assertionError, t)) :=
  C3_password_rotation egCrypto ['p'] ['q'] rfl (by decide) (by decide) (by decide)

/-- C3 counterexample: with the empty new password `Q = ""`,
`changePassword` raises (`bool("") == False` fails the `unlocked()` check
inside `getEncryptedMaster`), the envelope is not overwritten, and the
subsequent `lock()`/`unlock(Q)` fails instead of recovering the master —
so the claim fails at Q = `""`. -/
theorem C3_counterexample :
    (MasterPassword.changePassword egCrypto
        (MasterPassword.unlock egCrypto (MP.init none) ['p']).2 []).1
      = some Err.needUnlock ∧
    (MasterPassword.changePassword egCrypto
        (MasterPassword.unlock egCrypto (MP.init none) ['p']).2 []).2.config
      = (MasterPassword.unlock egCrypto (MP.init none) ['p']).2.config ∧
    (MasterPassword.unlock egCrypto (MasterPassword.lock (MasterPassword.changePassword egCrypto
        (MasterPassword.unlock egCrypto (MP.init none) ['p']).2 []).2) []).1
      = some Err.wrongMasterPassword := by
  decide

/-- C4: evaluation at the failing input. After `unlock("p")` on a fresh
store, `lock()` clears the password, is idempotent, always succeeds (it is
a total function), and the vault reports locked — but the in-memory
MasterSecret is retained: `masterkey` still returns the decrypted master,
contradicting the claim's requirement that `lock()` discard it. -/
theorem C4_lock_retains_master :
    (MasterPassword.lock
      (MasterPassword.unlock egCrypto (MP.init none) ['p']).2).password = none ∧
    MasterPassword.lock (MasterPassword.lock
      (MasterPassword.unlock egCrypto (MP.init none) ['p']).2)
      = MasterPassword.lock (MasterPassword.unlock egCrypto (MP.init none) ['p']).2 ∧
    (MasterPassword.locked egCrypto (MasterPassword.lock
      (MasterPassword.unlock egCrypto (MP.init none) ['p']).2)).2.1 = true ∧
    MasterPassword.masterkey (MasterPassword.lock
      (MasterPassword.unlock egCrypto (MP.init none) ['p']).2) = some egMaster ∧
    ¬ MasterPassword.masterkey (MasterPassword.lock
      (MasterPassword.unlock egCrypto (MP.init none) ['p']).2) = none := by
  decide

/-- C5 (amended): `unwrap(wrap(c)) == c` holds whenever a MasterSecret is
held in memory — the wrap/unwrap methods never check the lock state — and
when no MasterSecret is held they fail inside the wrapping primitive (a
type error on the `None` passphrase), not with a `NotUnlockedError`. -/
theorem C5_wrap_unwrap (C : Crypto) (s : MP) (mk wif : Str)
    (hdm : s.decrypted_master = some mk) :
    MasterPassword.encrypt C s wif = (none, some (C.bipEncrypt wif mk)) ∧
    MasterPassword.decrypt C s (C.bipEncrypt wif mk) = (none, some wif) ∧
    (∀ t : MP, t.decrypted_master = none →
      MasterPassword.encrypt C t wif = (some Err.typeError, none) ∧
      MasterPassword.decrypt C t wif = (some Err.typeError, none)) := by
  refine ⟨?_, ?_, ?_⟩
  · simp [MasterPassword.encrypt, hdm]
  · simp [MasterPassword.decrypt, hdm, C.bip_roundtrip]
  · intro t ht
    constructor <;> simp [MasterPassword.encrypt, MasterPassword.decrypt, ht]

/-- C5 witness at a concrete unlocked state. -/
theorem C5_wrap_unwrap_witness :
    MasterPassword.encrypt egCrypto
        (MasterPassword.unlock egCrypto (MP.init none) ['p']).2 ['w']
      = (none, some (egCrypto.bipEncrypt ['w'] egMaster)) ∧
    MasterPassword.decrypt egCrypto
        (MasterPassword.unlock egCrypto (MP.init none) ['p']).2
        (egCrypto.bipEncrypt ['w'] egMaster)
      = (none, some ['w']) ∧
    (∀ t : MP, t.decrypted_master = none →
      MasterPassword.encrypt egCrypto t ['w'] = (some Err.typeError, none) ∧
      MasterPassword.decrypt egCrypto t ['w'] = (some Err.typeError, none)) :=
  C5_wrap_unwrap egCrypto (MasterPassword.unlock egCrypto (MP.init none) ['p']).2
    egMaster ['w'] (by decide)

/-- C5 counterexample: after `unlock("p")` then `lock()` the vault reports
locked, yet `encrypt` succeeds and `decrypt` recovers the credential from
the retained stale master — neither fails with `NotUnlockedError` — so the
claim's "both wrap and unwrap fail whenever the vault is Locked" is false. -/
theorem C5_counterexample :
    (MasterPassword.locked egCrypto (MasterPassword.lock
      (MasterPassword.unlock egCrypto (MP.init none) ['p']).2)).2.1 = true ∧
    (MasterPassword.encrypt egCrypto (MasterPassword.lock
      (MasterPassword.unlock egCrypto (MP.init none) ['p']).2) ['w']).1 = none ∧
    MasterPassword.decrypt egCrypto
      (MasterPassword.lock (MasterPassword.unlock egCrypto (MP.init none) ['p']).2)
      ((MasterPassword.encrypt egCrypto (MasterPassword.lock
        (MasterPassword.unlock egCrypto (MP.init none) ['p']).2) ['w']).2.getD [])
      = (none, some ['w']) := by
  decide

/-- C6: `newMaster` refuses to overwrite any non-empty stored envelope,
leaving the state (and so the envelope) unchanged; on a fresh store it
succeeds and writes a non-empty envelope, after which any second call
fails with the already-initialized error and changes nothing. -/
theorem C6_no_silent_overwrite (C : Crypto) (P : Str)
    (henv : C.unlockEnv = none) (hP : P ≠ []) :
    (∀ (s : MP) (e Q : Str), s.config = some e → e ≠ [] →
      MasterPassword.newMaster C s Q = (some Err.alreadyInitialized, s)) ∧
    (MasterPassword.newMaster C (MP.init none) P).1 = none ∧
    (MasterPassword.newMaster C (MP.init none) P).2.config
      = some (envelopeOf C P C.randomHex) ∧
    envelopeOf C P C.randomHex ≠ [] ∧
    (∀ Q : Str,
      MasterPassword.newMaster C (MasterPassword.newMaster C (MP.init none) P).2 Q
        = (some Err.alreadyInitialized, (MasterPassword.newMaster C (MP.init none) P).2)) := by
  have henvne : envelopeOf C P C.randomHex ≠ [] := by
    simp [envelopeOf]
  have hguard : ∀ (s : MP) (e Q : Str), s.config = some e → e ≠ [] →
      MasterPassword.newMaster C s Q = (some Err.alreadyInitialized, s) := by
    intro s e Q hcfg he
    unfold MasterPassword.newMaster newMasterGo
    rw [hcfg]
    dsimp only
    rw [truthyStr_of_ne_nil he]
    rfl
  have hfresh : MasterPassword.newMaster C (MP.init none) P =
      (none, ⟨some (envelopeOf C P C.randomHex), [envelopeOf C P C.randomHex],
              some P, some C.randomHex⟩) := by
    unfold MasterPassword.newMaster newMasterGo
    dsimp only [MP.init]
    rw [saveEncrytpedMaster_run C henv _ P C.randomHex rfl hP rfl C.randomHex_ne_nil]
    rfl
  refine ⟨hguard, ?_, ?_, henvne, ?_⟩
  · rw [hfresh]
  · rw [hfresh]
  · intro Q
    rw [hfresh]
    exact hguard _ _ Q rfl henvne

/-- C6 witness at a concrete context. -/
theorem C6_no_silent_overwrite_witness :
    (∀ (s : MP) (e Q : Str), s.config = some e → e ≠ [] →
      MasterPassword.newMaster egCrypto s Q = (some Err.alreadyInitialized, s)) ∧
    (MasterPassword.newMaster egCrypto (MP.init none) ['p']).1 = none ∧
    (MasterPassword.newMaster egCrypto (MP.init none) ['p']).2.config
      = some (envelopeOf egCrypto ['p'] egCrypto.randomHex) ∧
    envelopeOf egCrypto ['p'] egCrypto.randomHex ≠ [] ∧
    (∀ Q : Str,
      MasterPassword.newMaster egCrypto
          (MasterPassword.newMaster egCrypto (MP.init none) ['p']).2 Q
        = (some Err.alreadyInitialized,
           (MasterPassword.newMaster egCrypto (MP.init none) ['p']).2)) :=
  C6_no_silent_overwrite egCrypto ['p'] rfl (by decide)

/-- C7 (amended: the bootstrap performs exactly two writes of the envelope
to the fixed key, not one — `newMaster` saves and then `unlock` saves
again; see `C7_counterexample`): on a store without an envelope,
`unlock(P)` generates the fresh random MasterSecret, ends with the vault
unlocked, and the store holds that single envelope. -/
theorem C7_bootstrap_writes (C : Crypto) (P : Str)
    (henv : C.unlockEnv = none) (hP : P ≠ []) :
    (MasterPassword.unlock C (MP.init none) P).1 = none ∧
    (MasterPassword.unlock C (MP.init none) P).2.decrypted_master = some C.randomHex ∧
    (MasterPassword.unlocked C (MasterPassword.unlock C (MP.init none) P).2).2.1 = true ∧
    (MasterPassword.unlock C (MP.init none) P).2.config
      = some (envelopeOf C P C.randomHex) ∧
    (MasterPassword.unlock C (MP.init none) P).2.writes
      = [envelopeOf C P C.randomHex, envelopeOf C P C.randomHex] := by
  have h1 := unlock_bootstrap C henv (MP.init none) rfl P hP
  simp only [MP.init, List.nil_append] at h1
  simp only [MP.init]
  rw [h1]
  refine ⟨rfl, rfl, ?_, rfl, rfl⟩
  simp [MasterPassword.unlocked, unlockedF_FUEL_noenv C henv,
    truthyOptStr_some_of_ne_nil hP]

/-- C7 witness at a concrete context. -/
theorem C7_bootstrap_writes_witness :
    (MasterPassword.unlock egCrypto (MP.init none) ['p']).1 = none ∧
    (MasterPassword.unlock egCrypto (MP.init none) ['p']).2.decrypted_master
      = some egCrypto.randomHex ∧
    (MasterPassword.unlocked egCrypto
        (MasterPassword.unlock egCrypto (MP.init none) ['p']).2).2.1 = true ∧
    (MasterPassword.unlock egCrypto (MP.init none) ['p']).2.config
      = some (envelopeOf egCrypto ['p'] egCrypto.randomHex) ∧
    (MasterPassword.unlock egCrypto (MP.init none) ['p']).2.writes
      = [envelopeOf egCrypto ['p'] egCrypto.randomHex,
         envelopeOf egCrypto ['p'] egCrypto.randomHex] :=
  C7_bootstrap_writes egCrypto ['p'] rfl (by decide)

/-- C7 counterexample: the first-run bootstrap writes the envelope twice
(`newMaster` persists it and then `unlock` persists it again), so "exactly
one new Envelope write" is false: the write log has length 2. -/
theorem C7_counterexample :
    ((MasterPassword.unlock egCrypto (MP.init none) ['p']).2.writes).length = 2 ∧
    ¬ ((MasterPassword.unlock egCrypto (MP.init none) ['p']).2.writes).length = 1 := by
  decide

/-- Flips bit `j` of the character at position `i` of the string (out of
range positions leave the string unchanged). -/
def flipBit (s : Str) (i j : Nat) : Str :=
  s.set i (Char.ofNat (Nat.xor (s.getD i (Char.ofNat 0)).toNat (2 ^ j)))

/-- C8 (amended: with the 16-bit truncated checksum a silent collision is
possible, see `C8_counterexample`): unlocking, with the correct password P,
a store whose envelope ciphertext portion has one flipped bit either raises
`WrongMasterPasswordException` (decryption failure or checksum mismatch) or
the malformed-envelope unpack error (the flip produced a delimiter), or
else succeeds only with a master whose derived checksum equals the stored
checksum of the original master. -/
theorem C8_corruption_outcomes (C : Crypto) (P mk ct' env' : Str) (i j : Nat)
    (_hct : ct' = flipBit (C.aesEncrypt P mk) i j)
    (henv' : env' = MasterPassword.deriveChecksum C mk ++ dollarChar :: ct') :
    (MasterPassword.unlock C (MP.init (some env')) P).1 = some Err.wrongMasterPassword ∨
    (MasterPassword.unlock C (MP.init (some env')) P).1 = some Err.malformedEnvelope ∨
    ((MasterPassword.unlock C (MP.init (some env')) P).1 = none ∧
     ∃ dm : Str,
       (MasterPassword.unlock C (MP.init (some env')) P).2.decrypted_master = some dm ∧
       MasterPassword.deriveChecksum C dm = MasterPassword.deriveChecksum C mk) := by
  subst henv'
  unfold MasterPassword.unlock unlockGo MasterPassword.decryptEncryptedMaster
  dsimp only [MP.init]
  rw [splitOnChar_append dollarChar (MasterPassword.deriveChecksum C mk) ct'
    (C.hash_no_dollar mk)]
  cases hsp : splitOnChar dollarChar ct' with
  | nil => exact absurd hsp (splitOnChar_ne_nil _ _)
  | cons b t =>
    cases t with
    | nil =>
      cases hdec : C.aesDecrypt P b with
      | none =>
        left
        simp [MasterPassword.raiseWrongMasterPasswordException, hdec]
      | some dm =>
        by_cases hcs : MasterPassword.deriveChecksum C mk ≠ MasterPassword.deriveChecksum C dm
        · left
          simp [MasterPassword.raiseWrongMasterPasswordException, hdec, hcs]
        · right; right
          rw [not_not] at hcs
          refine ⟨?_, dm, ?_, hcs.symm⟩ <;> simp [hdec, hcs]
    | cons c t2 =>
      right; left
      rfl

/-- C8 witness for the amended outcome disjunction, at a concrete context
and a concrete single-bit corruption. -/
theorem C8_corruption_outcomes_witness :
    (MasterPassword.unlock egCrypto
        (MP.init (some (MasterPassword.deriveChecksum egCrypto egMaster ++
          dollarChar :: flipBit (egCrypto.aesEncrypt ['p'] egMaster) 0 0))) ['p']).1
      = some Err.wrongMasterPassword ∨
    (MasterPassword.unlock egCrypto
        (MP.init (some (MasterPassword.deriveChecksum egCrypto egMaster ++
          dollarChar :: flipBit (egCrypto.aesEncrypt ['p'] egMaster) 0 0))) ['p']).1
      = some Err.malformedEnvelope ∨
    ((MasterPassword.unlock egCrypto
        (MP.init (some (MasterPassword.deriveChecksum egCrypto egMaster ++
          dollarChar :: flipBit (egCrypto.aesEncrypt ['p'] egMaster) 0 0))) ['p']).1
      = none ∧
     ∃ dm : Str,
       (MasterPassword.unlock egCrypto
          (MP.init (some (MasterPassword.deriveChecksum egCrypto egMaster ++
            dollarChar :: flipBit (egCrypto.aesEncrypt ['p'] egMaster) 0 0))) ['p']).2.decrypted_master
         = some dm ∧
       MasterPassword.deriveChecksum egCrypto dm
         = MasterPassword.deriveChecksum egCrypto egMaster) :=
  C8_corruption_outcomes egCrypto ['p'] egMaster _ _ 0 0 rfl rfl

/-- C9: with a password set and the config key present,
`decryptEncryptedMaster` raises the malformed-envelope unpack error exactly
when the number of dollar delimiters in the stored envelope is not one
(absent or duplicated delimiter), and such a failure leaves the state
unchanged. -/
theorem C9_malformed_envelope (C : Crypto) (s : MP) (pw e : Str)
    (hpw : s.password = some pw) (hcfg : s.config = some e) :
    ((MasterPassword.decryptEncryptedMaster C s).1 = some Err.malformedEnvelope ↔
      e.count dollarChar ≠ 1) ∧
    (e.count dollarChar ≠ 1 → (MasterPassword.decryptEncryptedMaster C s).2 = s) := by
  obtain ⟨cfg, w, pw0, dm0⟩ := s
  simp only at hpw hcfg
  subst hpw; subst hcfg
  unfold MasterPassword.decryptEncryptedMaster
  dsimp only
  have hlen := splitOnChar_length dollarChar e
  cases hsp : splitOnChar dollarChar e with
  | nil => exact absurd hsp (splitOnChar_ne_nil _ _)
  | cons x t =>
    rw [hsp] at hlen
    cases t with
    | nil =>
      simp only [List.length_cons, List.length_nil] at hlen
      constructor
      · constructor
        · intro _
          omega
        · intro _
          rfl
      · intro _
        rfl
    | cons y t2 =>
      cases t2 with
      | nil =>
        simp only [List.length_cons, List.length_nil] at hlen
        have hcount : e.count dollarChar = 1 := by omega
        constructor
        · rw [hcount]
          cases hdec : C.aesDecrypt pw y with
          | none =>
            simp [hdec, MasterPassword.raiseWrongMasterPasswordException]
          | some dm =>
            by_cases hcs : x = MasterPassword.deriveChecksum C dm
            · simp [hdec, hcs]
            · simp [hdec, hcs, MasterPassword.raiseWrongMasterPasswordException]
        · intro hcon
          exact absurd hcount hcon
      | cons z t3 =>
        simp only [List.length_cons] at hlen
        constructor
        · constructor
          · intro _
            omega
          · intro _
            rfl
        · intro _
          rfl

/-- C9 witness: a stored value with no delimiter raises the
malformed-envelope error and leaves the state unchanged. -/
theorem C9_malformed_envelope_witness :
    ((MasterPassword.decryptEncryptedMaster egCrypto
        ⟨some ['x'], [], some ['p'], none⟩).1 = some Err.malformedEnvelope ↔
      (['x'] : Str).count dollarChar ≠ 1) ∧
    ((['x'] : Str).count dollarChar ≠ 1 →
      (MasterPassword.decryptEncryptedMaster egCrypto
        ⟨some ['x'], [], some ['p'], none⟩).2 = ⟨some ['x'], [], some ['p'], none⟩) :=
  C9_malformed_envelope egCrypto ⟨some ['x'], [], some ['p'], none⟩ ['p'] ['x'] rfl rfl

/-- C10: a failed `unlock(Q)` with a wrong password after a successful
`unlock(P)` clears only the in-memory password: the vault reports locked,
yet `masterkey` still returns the previously decrypted MasterSecret, and
wrap/unwrap remain operational on that stale secret. -/
theorem C10_stale_master (C : Crypto) (P Q wif : Str)
    (henv : C.unlockEnv = none) (hP : P ≠ []) (hQ : Q ≠ P) :
    (MasterPassword.unlock C (MasterPassword.unlock C (MP.init none) P).2 Q).1
      = some Err.wrongMasterPassword ∧
    (MasterPassword.unlock C (MasterPassword.unlock C (MP.init none) P).2 Q).2.password
      = none ∧
    (MasterPassword.locked C
      (MasterPassword.unlock C (MasterPassword.unlock C (MP.init none) P).2 Q).2).2.1
      = true ∧
    MasterPassword.masterkey
      (MasterPassword.unlock C (MasterPassword.unlock C (MP.init none) P).2 Q).2
      = some C.randomHex ∧
    MasterPassword.encrypt C
      (MasterPassword.unlock C (MasterPassword.unlock C (MP.init none) P).2 Q).2 wif
      = (none, some (C.bipEncrypt wif C.randomHex)) ∧
    MasterPassword.decrypt C
      (MasterPassword.unlock C (MasterPassword.unlock C (MP.init none) P).2 Q).2
      (C.bipEncrypt wif C.randomHex)
      = (none, some wif) := by
  have h1 := unlock_bootstrap C henv (MP.init none) rfl P hP
  simp only [MP.init, List.nil_append] at h1
  simp only [MP.init]
  rw [h1]
  dsimp only
  rw [unlock_stored_wrong C _ P Q C.randomHex rfl hQ]
  dsimp only
  refine ⟨rfl, rfl, ?_, rfl, ?_, ?_⟩
  · simp [MasterPassword.locked, unlockedF_FUEL_noenv C henv, truthyOptStr]
  · simp [MasterPassword.encrypt]
  · simp [MasterPassword.decrypt, C.bip_roundtrip]

/-- C10 witness at a concrete context and password pair. -/
theorem C10_stale_master_witness :
    (MasterPassword.unlock egCrypto
        (MasterPassword.unlock egCrypto (MP.init none) ['p']).2 ['q']).1
      = some Err.wrongMasterPassword ∧
    (MasterPassword.unlock egCrypto
        (MasterPassword.unlock egCrypto (MP.init none) ['p']).2 ['q']).2.password = none ∧
    (MasterPassword.locked egCrypto (MasterPassword.unlock egCrypto
        (MasterPassword.unlock egCrypto (MP.init none) ['p']).2 ['q']).2).2.1 = true ∧
    MasterPassword.masterkey (MasterPassword.unlock egCrypto
        (MasterPassword.unlock egCrypto (MP.init none) ['p']).2 ['q']).2
      = some egCrypto.randomHex ∧
    MasterPassword.encrypt egCrypto (MasterPassword.unlock egCrypto
        (MasterPassword.unlock egCrypto (MP.init none) ['p']).2 ['q']).2 ['w']
      = (none, some (egCrypto.bipEncrypt ['w'] egCrypto.randomHex)) ∧
    MasterPassword.decrypt egCrypto (MasterPassword.unlock egCrypto
        (MasterPassword.unlock egCrypto (MP.init none) ['p']).2 ['q']).2
      (egCrypto.bipEncrypt ['w'] egCrypto.randomHex)
      = (none, some ['w']) :=
  C10_stale_master egCrypto ['p'] ['q'] ['w'] rfl (by decide) (by decide)

/-- Master value for the C8 collision scenario. -/
def c8Master : Str := ['m', 'a', 'a']

/-- Collaborator context for the C8 collision scenario. -/
def c8Crypto : Crypto := mkToyCrypto c8Master (by decide) none

/-- C8 counterexample: the vault persists the envelope for password `"pwd"`;
flipping one bit (bit 0 of the ciphertext character at index 20) produces a
ciphertext that still decrypts under the correct password to a DIFFERENT
master whose derived checksum collides with the stored one, so `unlock`
succeeds and silently returns a wrong MasterSecret — the claim's "never to
succeed returning a MasterSecret different from the original" is false
(the stored checksum has only 16 bits of strength, as the spec itself
notes). -/
theorem C8_counterexample :
    (MasterPassword.unlock c8Crypto (MP.init none) ['p', 'w', 'd']).2.config
      = some (envelopeOf c8Crypto ['p', 'w', 'd'] c8Master) ∧
    flipBit (c8Crypto.aesEncrypt ['p', 'w', 'd'] c8Master) 20 0
      ≠ c8Crypto.aesEncrypt ['p', 'w', 'd'] c8Master ∧
    (MasterPassword.unlock c8Crypto
      (MP.init (some (MasterPassword.deriveChecksum c8Crypto c8Master ++
        dollarChar :: flipBit (c8Crypto.aesEncrypt ['p', 'w', 'd'] c8Master) 20 0)))
      ['p', 'w', 'd']).1 = none ∧
    (MasterPassword.unlock c8Crypto
      (MP.init (some (MasterPassword.deriveChecksum c8Crypto c8Master ++
        dollarChar :: flipBit (c8Crypto.aesEncrypt ['p', 'w', 'd'] c8Master) 20 0)))
      ['p', 'w', 'd']).2.decrypted_master
      = some (Char.ofNat 10109 :: ['a', 'a']) ∧
    ¬ (MasterPassword.unlock c8Crypto
      (MP.init (some (MasterPassword.deriveChecksum c8Crypto c8Master ++
        dollarChar :: flipBit (c8Crypto.aesEncrypt ['p', 'w', 'd'] c8Master) 20 0)))
      ['p', 'w', 'd']).2.decrypted_master = some c8Master := by
  decide
